import Mathlib

/-!
Verification of the annotation-and-capture subsystem of the chisel overlay
(`src/overlay.ts`).  The interactive draw engine, the undo/defensive-copy
accessors, the screenshot capture with its chrome hide/restore discipline,
the style collector, and the two annotation renderers (SVG foreignObject
markup and html2canvas compositing) are shallowly embedded below; mouse
coordinates are integers (DOM `clientX`/`clientY`), derived geometry uses
exact rationals, and the trigonometric arrowhead geometry uses reals.
-/

namespace Chisel

/-- The closed tool set `AnnotationTool = "circle" | "arrow" | "text"` from
`types.ts`. -/
inductive Tool where
  | circle
  | arrow
  | text
deriving DecidableEq, Repr

/-- One committed user-drawn mark: the source's annotation record from
`types.ts` (`id`, `tool`, `x`, `y`, optional `width`/`height`/`endX`/`endY`/
`text`, `color`). -/
structure Ann where
  id : String
  tool : Tool
  x : Int
  y : Int
  width : Option Int := none
  height : Option Int := none
  endX : Option Int := none
  endY : Option Int := none
  text : Option String := none
  color : String
deriving DecidableEq, Repr

/-- The in-progress `Partial` record stored in `this.pendingAnnotation`
during a drag gesture: the circle path stores only `id`, `tool`, `color`;
the arrow path additionally stores the start point `x`, `y`. -/
structure PendingAnn where
  id : String
  tool : Tool
  x : Option Int := none
  y : Option Int := none
  color : String
deriving DecidableEq, Repr

/-- A mouse event as the handlers see it: `clientX`, `clientY`, and whether
`e.target` sits inside chisel chrome other than the overlay itself (the
`closest("[data-chisel]:not([data-chisel=overlay])")` guard). -/
structure MouseEv where
  x : Int
  y : Int
  inChiselChrome : Bool := false
deriving DecidableEq, Repr

/-- One SVG child element of the overlay surface.  `eid` models DOM node
identity (needed for `activeElement.remove()`), `tag` the element name, and
`attrs` the numeric attributes the handlers set (`cx`, `rx`, `x2`, ...). -/
structure SvgElem where
  eid : Nat
  tag : String
  attrs : List (String × ℚ)
  stroke : String
deriving DecidableEq, Repr

/-- The overlay's `<svg>` surface: its `style.display`, its child elements
(excluding the persistent `<defs>`), the arrow-marker ids living in the
`<defs>`, and a fresh-node counter for element identity. -/
structure SvgModel where
  display : String
  children : List SvgElem
  markers : List String
  nextEid : Nat
deriving DecidableEq, Repr

/-- Which handler set is currently attached: the mousedown/move/up trio
(circle and arrow tools) or the click handler (text tool). -/
inductive HKind where
  | mouseDraw
  | click
deriving DecidableEq, Repr

/-- The fields of the `AnnotationOverlay` class.  `svg = none` until
`createSVG` runs; `attachedKind` records which listener set is attached;
`nextAnnId` models the module-level id counter consumed by `genId`. -/
structure OverlayState where
  svg : Option SvgModel
  annotations : List Ann
  activeTool : Tool
  color : String
  drawing : Bool
  startX : Int
  startY : Int
  activeElement : Option Nat
  pendingAnn : Option PendingAnn
  attachedKind : Option HKind
  nextAnnId : Nat
deriving DecidableEq, Repr

/-- Field initializers of the class plus the module counter `nextAnnId = 1`:
tool `circle`, color `#ef4444`, nothing drawn, no surface yet. -/
def initialOverlay : OverlayState where
  svg := none
  annotations := []
  activeTool := .circle
  color := "#ef4444"
  drawing := false
  startX := 0
  startY := 0
  activeElement := none
  pendingAnn := none
  attachedKind := none
  nextAnnId := 1

/-- `genId()`: returns `ann_${nextAnnId++}` together with the bumped
counter. -/
def genId (n : Nat) : String × Nat :=
  ("ann_" ++ toString n, n + 1)

/-- `setAttribute` on the numeric attributes of an element: replace the
value when the name is present, append it otherwise. -/
def setAttr (attrs : List (String × ℚ)) (k : String) (v : ℚ) : List (String × ℚ) :=
  if attrs.any (fun p => p.1 == k) then
    attrs.map (fun p => if p.1 == k then (k, v) else p)
  else attrs ++ [(k, v)]

/-- Which handler set `attachHandlers` installs for a tool. -/
def handlerKindFor : Tool → HKind
  | .circle => .mouseDraw
  | .arrow => .mouseDraw
  | .text => .click

/-- `attachHandlers()`: returns early when no svg exists, otherwise installs
the handler set for the active tool. -/
def attachHandlers (s : OverlayState) : OverlayState :=
  match s.svg with
  | none => s
  | some _ => { s with attachedKind := some (handlerKindFor s.activeTool) }

/-- `detachHandlers()`: returns early when no svg exists, otherwise removes
whichever listeners are attached. -/
def detachHandlers (s : OverlayState) : OverlayState :=
  match s.svg with
  | none => s
  | some _ => { s with attachedKind := none }

/-- `createSVG()`: fresh surface appended to the body; its `cssText` does
not set `display`, so the style starts as the empty string. -/
def createSVG (s : OverlayState) : OverlayState :=
  { s with svg := some { display := "", children := [], markers := [], nextEid := 0 } }

/-- `show(tool)`: set the active tool, create the svg on first use, set
`display` to `block`, then detach and re-attach handlers. -/
def show' (s : OverlayState) (tool : Tool) : OverlayState :=
  let s1 := { s with activeTool := tool }
  let s2 := match s1.svg with
    | none => createSVG s1
    | some _ => s1
  let s3 := match s2.svg with
    | none => s2
    | some m => { s2 with svg := some { m with display := "block" } }
  attachHandlers (detachHandlers s3)

/-- `hide()`: set `display` to `none` when the svg exists, detach handlers,
and clear the drawing flag. -/
def hide (s : OverlayState) : OverlayState :=
  let s1 := match s.svg with
    | none => s
    | some m => { s with svg := some { m with display := "none" } }
  let s2 := detachHandlers s1
  { s2 with drawing := false }

/-- `setTool(tool)`: set the active tool and rebind handlers; nothing else
is touched. -/
def setTool (s : OverlayState) (tool : Tool) : OverlayState :=
  attachHandlers (detachHandlers { s with activeTool := tool })

/-- `setColor(color)`. -/
def setColor (s : OverlayState) (c : String) : OverlayState :=
  { s with color := c }

/-- `ensureArrowMarker(color)`: derive the marker id from the color, add it
to the `<defs>` if absent, and return it. -/
def ensureArrowMarker (m : SvgModel) (color : String) : SvgModel × String :=
  let mid := "chisel-arrow-" ++ color.replace "#" ""
  if m.markers.contains mid then (m, mid)
  else ({ m with markers := m.markers ++ [mid] }, mid)

/-- Append a fresh child element to the surface (models `appendChild`). -/
def appendElem (m : SvgModel) (tag : String) (attrs : List (String × ℚ))
    (stroke : String) : SvgModel :=
  { m with
    children := m.children ++ [{ eid := m.nextEid, tag := tag, attrs := attrs, stroke := stroke }]
    nextEid := m.nextEid + 1 }

/-- `getAnnotations()` at the data level: the spread `[...this.annotations]`
returns the same records in the same order (object-identity aspects of the
returned array are modelled separately in the `Mem` section). -/
def getAnnotations (s : OverlayState) : List Ann :=
  s.annotations

/-- `getAnnotationCount()`. -/
def getAnnotationCount (s : OverlayState) : Nat :=
  s.annotations.length

/-- Apply an update to the svg child with the given node identity (models a
`setAttribute` call on a held element reference). -/
def updateSvgElem (s : OverlayState) (eid : Nat) (f : SvgElem → SvgElem) : OverlayState :=
  match s.svg with
  | none => s
  | some m =>
    let m1 := { m with children := m.children.map (fun el => if el.eid == eid then f el else el) }
    { s with svg := some m1 }

/-- `this.activeElement?.remove()`: detach the held element from the svg. -/
def removeActiveElement (s : OverlayState) : OverlayState :=
  match s.activeElement, s.svg with
  | some eid, some m =>
    { s with svg := some { m with children := m.children.filter (fun el => el.eid != eid) } }
  | _, _ => s

/-- The `mousedown` handler for the circle/arrow handler set: guard against
chisel chrome, set the drawing flag and start point, append the live
zero-sized primitive, and record the pending record with the current color
(the arrow path also records the start point and registers its marker).
The `none` svg branch is unreachable in the source: handlers exist only
while the svg does, and the handler asserts `this.svg!`. -/
def onMouseDown (s : OverlayState) (e : MouseEv) : OverlayState :=
  if e.inChiselChrome then s
  else match s.svg with
  | none => s
  | some m =>
    let s1 := { s with drawing := true, startX := e.x, startY := e.y }
    if s1.activeTool = .circle then
      let m1 := appendElem m "ellipse"
        [("cx", (e.x : ℚ)), ("cy", (e.y : ℚ)), ("rx", 0), ("ry", 0)] s1.color
      let p := genId s1.nextAnnId
      { s1 with
        svg := some m1
        activeElement := some m.nextEid
        pendingAnn := some { id := p.1, tool := .circle, color := s1.color }
        nextAnnId := p.2 }
    else
      let mm := ensureArrowMarker m s1.color
      let m1 := appendElem mm.1 "line"
        [("x1", (e.x : ℚ)), ("y1", (e.y : ℚ)), ("x2", (e.x : ℚ)), ("y2", (e.y : ℚ))] s1.color
      let p := genId s1.nextAnnId
      { s1 with
        svg := some m1
        activeElement := some mm.1.nextEid
        pendingAnn := some { id := p.1, tool := .arrow, x := some e.x, y := some e.y, color := s1.color }
        nextAnnId := p.2 }

/-- The `mousemove` handler: no-op unless mid-drag with a live element;
the circle path recomputes the bounding ellipse from the two opposite
corners, the arrow path moves the live endpoint. -/
def onMouseMove (s : OverlayState) (e : MouseEv) : OverlayState :=
  match s.activeElement with
  | none => s
  | some eid =>
    if s.drawing then
      if s.activeTool = .circle then
        let rx : ℚ := |(e.x : ℚ) - (s.startX : ℚ)| / 2
        let ry : ℚ := |(e.y : ℚ) - (s.startY : ℚ)| / 2
        let cx : ℚ := (min s.startX e.x : Int) + rx
        let cy : ℚ := (min s.startY e.y : Int) + ry
        updateSvgElem s eid (fun el =>
          { el with attrs := setAttr (setAttr (setAttr (setAttr el.attrs "cx" cx) "cy" cy) "rx" rx) "ry" ry })
      else
        updateSvgElem s eid (fun el =>
          { el with attrs := setAttr (setAttr el.attrs "x2" (e.x : ℚ)) "y2" (e.y : ℚ) })
    else s

/-- The `mouseup` handler: no-op unless mid-drag; clear the drawing flag;
on the circle path commit the min-corner/abs-size geometry unless the drag
moved less than 5px in both axes (then the live primitive is removed), the
arrow path likewise with the pointer-up endpoint; finally drop the live
element reference and the pending record.  The arrow commit spreads the
pending record, so its start point comes from pointer-down time (the
source casts the `Partial` record; an arrow pending always carries the
start point, and the model defaults an absent one to 0). -/
def onMouseUp (s : OverlayState) (e : MouseEv) : OverlayState :=
  if s.drawing then
    let s1 := { s with drawing := false }
    let s2 :=
      match s1.activeTool, s1.pendingAnn with
      | .circle, some p =>
        let w := |e.x - s1.startX|
        let hgt := |e.y - s1.startY|
        if w < 5 ∧ hgt < 5 then removeActiveElement s1
        else { s1 with annotations := s1.annotations ++
          [({ id := p.id, tool := p.tool, x := min s1.startX e.x, y := min s1.startY e.y,
              width := some w, height := some hgt, color := p.color } : Ann)] }
      | .arrow, some p =>
        let dx := |e.x - s1.startX|
        let dy := |e.y - s1.startY|
        if dx < 5 ∧ dy < 5 then removeActiveElement s1
        else { s1 with annotations := s1.annotations ++
          [({ id := p.id, tool := p.tool, x := p.x.getD 0, y := p.y.getD 0,
              endX := some e.x, endY := some e.y, color := p.color } : Ann)] }
      | _, _ => s1
    { s2 with activeElement := none, pendingAnn := none }
  else s

/-- A full pointer-down → moves → pointer-up gesture through the attached
circle/arrow handler set. -/
def mouseGesture (s : OverlayState) (down : MouseEv) (moves : List MouseEv)
    (up : MouseEv) : OverlayState :=
  onMouseUp (moves.foldl onMouseMove (onMouseDown s down)) up

/-- One iteration of the `redraw()` loop: re-emit the svg elements for a
committed annotation (guards exactly as in the source; the text branch's
background rect gets its geometry from `getBBox()`, a browser font-metric
query that the model leaves as an attribute-less rect). -/
def redrawAnn (m : SvgModel) (a : Ann) : SvgModel :=
  match a.tool with
  | .circle =>
    match a.width, a.height with
    | some w, some hgt =>
      let rx : ℚ := (w : ℚ) / 2
      let ry : ℚ := (hgt : ℚ) / 2
      appendElem m "ellipse"
        [("cx", (a.x : ℚ) + rx), ("cy", (a.y : ℚ) + ry), ("rx", rx), ("ry", ry)] a.color
    | _, _ => m
  | .arrow =>
    match a.endX, a.endY with
    | some ex, some ey =>
      let mm := ensureArrowMarker m a.color
      appendElem mm.1 "line"
        [("x1", (a.x : ℚ)), ("y1", (a.y : ℚ)), ("x2", (ex : ℚ)), ("y2", (ey : ℚ))] a.color
    | _, _ => m
  | .text =>
    match a.text with
    | some t =>
      if t = "" then m
      else
        let m1 := appendElem m "rect" [] a.color
        appendElem m1 "text" [("x", (a.x : ℚ)), ("y", (a.y : ℚ) + 18)] a.color
    | none => m

/-- `redraw()`: clear every child except the `<defs>`, then replay each
remaining annotation in list order. -/
def redraw (s : OverlayState) : OverlayState :=
  match s.svg with
  | none => s
  | some m =>
    { s with svg := some (s.annotations.foldl redrawAnn { m with children := [] }) }

/-- `undo()`: return early on an empty list, otherwise pop the most recent
annotation and redraw the remainder. -/
def undo (s : OverlayState) : OverlayState :=
  if s.annotations.isEmpty then s
  else redraw { s with annotations := s.annotations.dropLast }

/-- The host document around the overlay, as far as capture touches it: the
`style.display` of the `[data-chisel="root"]` panel element (`none` in the
option sense when no such element exists). -/
structure ChiselDoc where
  rootDisplay : Option String
deriving DecidableEq, Repr

/-- `captureWithForeignObject(annotations)`: the DOM clone, chisel-node
stripping, style collection and SVG serialization are pure reads abstracted
here (the annotation fragment of the markup is modelled by `renderAnnFO`
below, the style blob by `collectStyles`); `raster` is the oracle for
whether the composed SVG decodes as an image, `png` the oracle for
`canvas.toDataURL("image/png")`.  On decode failure the promise rejects
with `Failed to render screenshot`. -/
def captureWithForeignObject (anns : List Ann) (raster : Bool) (png : String) :
    Except String String :=
  if raster then Except.ok png else Except.error "Failed to render screenshot"

/-- `captureScreenshot()`: record the overlay's and the chisel root's
current `display`, set both to `none`, run the foreignObject capture, and
in the `finally` block restore each recorded display whenever the element
exists and a value was recorded. -/
def captureScreenshot (s : OverlayState) (doc : ChiselDoc) (raster : Bool) (png : String) :
    Except String String × OverlayState × ChiselDoc :=
  let overlayDisplay := s.svg.map (fun m => m.display)
  let sHidden := match s.svg with
    | none => s
    | some m => { s with svg := some { m with display := "none" } }
  let docHidden : ChiselDoc := { rootDisplay := doc.rootDisplay.map (fun _ => "none") }
  let result := captureWithForeignObject sHidden.annotations raster png
  let sRestored := match sHidden.svg, overlayDisplay with
    | some m, some d => { sHidden with svg := some { m with display := d } }
    | _, _ => sHidden
  let docRestored : ChiselDoc := match docHidden.rootDisplay, doc.rootDisplay with
    | some _, some d => { rootDisplay := some d }
    | _, _ => docHidden
  (result, sRestored, docRestored)

/-- One entry of `document.styleSheets`: reading `cssRules` either yields
the rule texts in order or throws the cross-origin security error (the
`Except` error case); `href` is the sheet's network address when it has
one. -/
structure StyleSheetModel where
  cssRules : Except Unit (List String)
  href : Option String

/-- The loop body of `collectStyles()`, carrying the `parts` accumulator:
readable sheets push every rule's `cssText`; on the security error a sheet
with an `href` is fetched, and the text is pushed only when the fetch does
not throw (`some`) and the response is ok (`true`); all other failures are
skipped silently. -/
def collectStylesGo (fetch : String → Option (Bool × String)) :
    List StyleSheetModel → List String → List String
  | [], parts => parts
  | sheet :: rest, parts =>
    let parts1 :=
      match sheet.cssRules with
      | .ok rules => parts ++ rules
      | .error _ =>
        match sheet.href with
        | some href =>
          match fetch href with
          | some (true, t) => parts ++ [t]
          | _ => parts
        | none => parts
    collectStylesGo fetch rest parts1

/-- `collectStyles()`: join the collected parts with newlines.  The
function is total: every sheet- or fetch-level failure is absorbed by the
branches of `collectStylesGo`. -/
def collectStyles (sheets : List StyleSheetModel) (fetch : String → Option (Bool × String)) :
    String :=
  String.intercalate "\n" (collectStylesGo fetch sheets [])

/-- Modelled after the specification's wording, for the refinement
statement only: the blob a single sheet contributes — a readable sheet
contributes its rules' textual form in rule order, a blocked sheet with a
resolvable address contributes its fetched text when the fetch succeeds,
and every failing or address-less sheet contributes nothing. -/
def sheetContributionSpec (fetch : String → Option (Bool × String))
    (sheet : StyleSheetModel) : List String :=
  match sheet.cssRules with
  | .ok rules => rules
  | .error _ =>
    match sheet.href with
    | some href =>
      match fetch href with
      | some (true, t) => [t]
      | _ => []
    | none => []

/-- A rendered capture primitive: the shapes both capture strategies emit
for an annotation (SVG markup elements, or the equivalent canvas paths). -/
inductive Prim where
  | ellipse (cx cy rx ry : ℝ) (color : String)
  | line (x1 y1 x2 y2 : ℝ) (color : String)
  | polygon (tip pa pb : ℝ × ℝ) (color : String)
  | rect (x y w h : ℝ)
  | glyphs (x y : ℝ) (content color : String)

/-- JS `Math.atan2(y, x)` over the reals (signed zeros collapse to 0). -/
noncomputable def atan2 (y x : ℝ) : ℝ :=
  if 0 < x then Real.arctan (y / x)
  else if x < 0 ∧ 0 ≤ y then Real.arctan (y / x) + Real.pi
  else if x < 0 ∧ y < 0 then Real.arctan (y / x) - Real.pi
  else if x = 0 ∧ 0 < y then Real.pi / 2
  else if x = 0 ∧ y < 0 then -(Real.pi / 2)
  else 0

/-- The arrowhead base vertices as the foreignObject capture computes them
(`angle`, then `headLen = 12`, then the two `cos`/`sin` offsets from the
end point). -/
noncomputable def foArrowHead (x y ex ey : ℝ) : (ℝ × ℝ) × (ℝ × ℝ) :=
  let angle := atan2 (ey - y) (ex - x)
  let headLen : ℝ := 12
  ((ex - headLen * Real.cos (angle - Real.pi / 6), ey - headLen * Real.sin (angle - Real.pi / 6)),
   (ex - headLen * Real.cos (angle + Real.pi / 6), ey - headLen * Real.sin (angle + Real.pi / 6)))

/-- The arrowhead base vertices as `drawCanvasArrow` computes them
(`headLen = 12`, then `angle`, then the two `cos`/`sin` offsets). -/
noncomputable def canvasArrowHead (x1 y1 x2 y2 : ℝ) : (ℝ × ℝ) × (ℝ × ℝ) :=
  let headLen : ℝ := 12
  let angle := atan2 (y2 - y1) (x2 - x1)
  ((x2 - headLen * Real.cos (angle - Real.pi / 6), y2 - headLen * Real.sin (angle - Real.pi / 6)),
   (x2 - headLen * Real.cos (angle + Real.pi / 6), y2 - headLen * Real.sin (angle + Real.pi / 6)))

/-- The text escaping applied before embedding an annotation's text in the
SVG markup. -/
def escapeTextForSvg (t : String) : String :=
  (t.replace "&" "&amp;").replace "<" "&lt;"

/-- One iteration of the `annotationsSvg` loop in
`captureWithForeignObject`: the markup elements emitted for one
annotation, with the source's field guards (a circle needs `width` and
`height`, an arrow needs `endX` and `endY`, a text needs non-empty text;
anything else falls through the chain and emits nothing). -/
noncomputable def renderAnnFO (a : Ann) : List Prim :=
  match a.tool with
  | .circle =>
    match a.width, a.height with
    | some w, some hgt =>
      let rx : ℝ := (w : ℝ) / 2
      let ry : ℝ := (hgt : ℝ) / 2
      [.ellipse ((a.x : ℝ) + rx) ((a.y : ℝ) + ry) |rx| |ry| a.color]
    | _, _ => []
  | .arrow =>
    match a.endX, a.endY with
    | some ex, some ey =>
      let hd := foArrowHead (a.x : ℝ) (a.y : ℝ) (ex : ℝ) (ey : ℝ)
      [.line (a.x : ℝ) (a.y : ℝ) (ex : ℝ) (ey : ℝ) a.color,
       .polygon ((ex : ℝ), (ey : ℝ)) hd.1 hd.2 a.color]
    | _, _ => []
  | .text =>
    match a.text with
    | some t =>
      if t = "" then []
      else
        [.rect ((a.x : ℝ) - 4) ((a.y : ℝ) - 2) ((t.length : ℝ) * 9 + 8) 22,
         .glyphs (a.x : ℝ) ((a.y : ℝ) + 16) (escapeTextForSvg t) a.color]
    | none => []

/-- The whole `annotationsSvg` fragment: the per-annotation emissions
concatenated in list order. -/
noncomputable def annotationsSvgFO (anns : List Ann) : List Prim :=
  anns.flatMap renderAnnFO

/-- `drawCanvasArrow(ctx, x1, y1, x2, y2, color)`: the shaft stroke plus
the filled head triangle whose base vertices come from `canvasArrowHead`. -/
noncomputable def drawCanvasArrow (x1 y1 x2 y2 : ℝ) (color : String) : List Prim :=
  let hd := canvasArrowHead x1 y1 x2 y2
  [.line x1 y1 x2 y2 color, .polygon (x2, y2) hd.1 hd.2 color]

/-- One iteration of the annotation loop in the html2canvas capture
variant: the canvas paths drawn for one annotation, with the identical
field guards (the text branch draws only the glyph run there — no
background rect — and applies no markup escaping). -/
noncomputable def renderAnnCanvas (a : Ann) : List Prim :=
  match a.tool with
  | .circle =>
    match a.width, a.height with
    | some w, some hgt =>
      let rx : ℝ := (w : ℝ) / 2
      let ry : ℝ := (hgt : ℝ) / 2
      [.ellipse ((a.x : ℝ) + rx) ((a.y : ℝ) + ry) |rx| |ry| a.color]
    | _, _ => []
  | .arrow =>
    match a.endX, a.endY with
    | some ex, some ey => drawCanvasArrow (a.x : ℝ) (a.y : ℝ) (ex : ℝ) (ey : ℝ) a.color
    | _, _ => []
  | .text =>
    match a.text with
    | some t => if t = "" then [] else [.glyphs (a.x : ℝ) ((a.y : ℝ) + 16) t a.color]
    | none => []

/-- Well-formedness per the round-trip claim: a circle carries `width` and
`height`, an arrow carries `endX` and `endY`, a text annotation carries
non-empty text. -/
def wellFormedAnn (a : Ann) : Bool :=
  match a.tool with
  | .circle => a.width.isSome && a.height.isSome
  | .arrow => a.endX.isSome && a.endY.isSome
  | .text => a.text.getD "" != ""

/-- The number of non-empty per-annotation shape groups a renderer emits. -/
noncomputable def renderedGroupCount (render : Ann → List Prim) (anns : List Ann) : Nat :=
  ((anns.map render).filter (fun g => !g.isEmpty)).length

/-- A tiny JS heap for the aliasing behaviour of `getAnnotations()`: array
objects and annotation records are heap entities addressed by index, and
the engine holds the address of its own backing array. -/
structure Mem where
  arrHeap : List (List Nat)
  annHeap : List Ann
  engineArr : Nat
deriving DecidableEq, Repr

/-- `getAnnotations()` under reference semantics: the spread
`[...this.annotations]` allocates a fresh array object holding the same
record references and returns the new array's address. -/
def getAnnotationsJs (m : Mem) : Mem × Nat :=
  let contents := m.arrHeap.getD m.engineArr []
  ({ m with arrHeap := m.arrHeap ++ [contents] }, m.arrHeap.length)

/-- A caller-side mutation of an array object (push, pop, splice, element
replacement) at an array address. -/
def writeArr (m : Mem) (r : Nat) (v : List Nat) : Mem :=
  { m with arrHeap := m.arrHeap.set r v }

/-- A caller-side mutation of an annotation record through a reference. -/
def writeAnnRecord (m : Mem) (r : Nat) (a : Ann) : Mem :=
  { m with annHeap := m.annHeap.set r a }

/-- The record a dangling reference dereferences to (modelling artifact;
unused by the statements below, which keep references in range). -/
def defaultAnn : Ann :=
  { id := "", tool := .circle, x := 0, y := 0, color := "" }

/-- What a later `getAnnotations()` call observes: the records reached
through the engine's backing array. -/
def readEngineAnnotations (m : Mem) : List Ann :=
  (m.arrHeap.getD m.engineArr []).map (fun r => m.annHeap.getD r defaultAnn)

/-- The overlay right after `show("circle")` on a fresh instance: surface
created and visible, circle handlers attached.  Used as the concrete state
of several witnesses. -/
def shownCircle : OverlayState :=
  show' initialOverlay .circle

/-- The overlay mid-gesture: pointer-down at (10, 10) with the circle tool
on the freshly shown overlay. -/
def midGesture : OverlayState :=
  onMouseDown shownCircle { x := 10, y := 10 }

/-- A one-annotation heap whose engine array holds a reference to the single
record; the concrete memory of the aliasing counterexample. -/
def memCex : Mem :=
  { arrHeap := [[0]], annHeap := [{ defaultAnn with color := "#ef4444" }], engineArr := 0 }

/-- C1: `captureScreenshot()` resolves with the encoded image payload when
rasterization succeeds and rejects with the descriptive capture error when
it fails, and on both paths the overlay surface's display, the host
panel's display — indeed the entire overlay and document state — equal
their pre-call values: no path leaves the hidden chrome hidden. -/
theorem captureScreenshot_restores_visibility (s : OverlayState) (doc : ChiselDoc)
    (raster : Bool) (png : String) :
    (captureScreenshot s doc raster png).2.1 = s ∧
    (captureScreenshot s doc raster png).2.2 = doc ∧
    (captureScreenshot s doc raster png).1 =
      (if raster then Except.ok png else Except.error "Failed to render screenshot") := by
  rcases s with ⟨sv, anns, tool, col, dr, sx, sy, ae, pa, ak, nid⟩
  rcases doc with ⟨rd⟩
  cases sv <;> cases rd <;>
    simp [captureScreenshot, captureWithForeignObject]

/-- C5: `undo()` on an engine with at least one annotation removes exactly
the most recently committed annotation: the result is the original list
without its last element, so the length drops by one. -/
theorem undo_pops_last (s : OverlayState) (h : s.annotations ≠ []) :
    (undo s).annotations = s.annotations.dropLast ∧
    (undo s).annotations.length = s.annotations.length - 1 := by
  have hne : s.annotations.isEmpty = false := by
    simpa [List.isEmpty_iff] using h
  have hu : (undo s).annotations = s.annotations.dropLast := by
    unfold undo redraw
    rw [hne]
    simp only [Bool.false_eq_true, if_false]
    cases hs : s.annotations.dropLast <;> rcases s with ⟨sv, _, _, _, _, _, _, _, _, _, _⟩ <;>
      cases sv <;> simp_all
  refine ⟨hu, ?_⟩
  rw [hu, List.length_dropLast]

/-- Applying `undo_pops_last` to a concrete one-annotation engine. -/
theorem undo_pops_last_witness :
    (({ initialOverlay with annotations := [defaultAnn] } : OverlayState).annotations ≠ []) ∧
    (undo { initialOverlay with annotations := [defaultAnn] }).annotations = [] := by
  refine ⟨by decide, ?_⟩
  have := (undo_pops_last { initialOverlay with annotations := [defaultAnn] } (by decide)).1
  simpa using this

/-- The accumulator recursion of the `collectStyles` loop equals the
append of the per-sheet contributions. -/
theorem collectStylesGo_eq (fetch : String → Option (Bool × String))
    (sheets : List StyleSheetModel) (parts : List String) :
    collectStylesGo fetch sheets parts
      = parts ++ sheets.flatMap (sheetContributionSpec fetch) := by
  induction sheets generalizing parts with
  | nil => simp [collectStylesGo]
  | cons sheet rest ih =>
    rw [collectStylesGo, List.flatMap_cons]
    cases hcss : sheet.cssRules with
    | ok rules =>
      rw [ih]
      simp [sheetContributionSpec, hcss]
    | error e =>
      cases bhref : sheet.href with
      | none =>
        rw [ih]
        simp [sheetContributionSpec, hcss, bhref]
      | some href =>
        cases hf : fetch href with
        | none =>
          rw [ih]
          simp [sheetContributionSpec, hcss, bhref, hf]
        | some pr =>
          rcases pr with ⟨ok, t⟩
          cases ok <;> rw [ih] <;> simp [sheetContributionSpec, hcss, bhref, hf]

/-- C7: style collection is total (every sheet- or fetch-level failure is
absorbed locally) and the produced blob is exactly the newline join of the
per-sheet contributions in stylesheet-then-rule order: readable sheets
contribute their rules' text, blocked sheets with an address contribute
their fetched text when the fetch succeeds with an ok response, and every
failing or address-less sheet is skipped silently. -/
theorem collectStyles_characterization (sheets : List StyleSheetModel)
    (fetch : String → Option (Bool × String)) :
    collectStyles sheets fetch
      = String.intercalate "\n" (sheets.flatMap (sheetContributionSpec fetch)) := by
  unfold collectStyles
  rw [collectStylesGo_eq]
  rfl

/-- C6 counterexample: the collection `getAnnotations()` returns shares its
annotation records with the engine, so mutating a returned record changes
what a subsequent `getAnnotations()` observes — the returned value is not
independent of the engine's internal state in the record-mutation sense. -/
theorem getAnnotations_record_aliasing_cex :
    readEngineAnnotations
        (writeAnnRecord (getAnnotationsJs memCex).1 0 { defaultAnn with color := "#00ff00" })
      ≠ readEngineAnnotations memCex := by
  decide

/-- C6 amended: the spread in `getAnnotations()` allocates a fresh array
object, distinct from the engine's backing array but with the same record
references, so any caller-side mutation of the returned array itself
(adding, removing or replacing elements) leaves every subsequent
`getAnnotations()` result unchanged; the records it contains remain shared
(see the counterexample). -/
theorem getAnnotations_fresh_array (m : Mem) (h : m.engineArr < m.arrHeap.length) :
    (getAnnotationsJs m).2 ≠ m.engineArr ∧
    (getAnnotationsJs m).1.arrHeap.getD (getAnnotationsJs m).2 []
      = m.arrHeap.getD m.engineArr [] ∧
    ∀ v : List Nat,
      readEngineAnnotations (writeArr (getAnnotationsJs m).1 (getAnnotationsJs m).2 v)
        = readEngineAnnotations m := by
  refine ⟨show m.arrHeap.length ≠ m.engineArr by omega, ?_, ?_⟩
  · show (m.arrHeap ++ [m.arrHeap.getD m.engineArr []]).getD m.arrHeap.length []
        = m.arrHeap.getD m.engineArr []
    rw [List.getD_eq_getElem?_getD, List.getElem?_append_right (Nat.le_refl _)]
    simp
  · intro v
    show readEngineAnnotations
        ({ m with arrHeap := (m.arrHeap ++ [m.arrHeap.getD m.engineArr []]).set m.arrHeap.length v })
      = readEngineAnnotations m
    unfold readEngineAnnotations
    have harr : ((m.arrHeap ++ [m.arrHeap.getD m.engineArr []]).set m.arrHeap.length v).getD
        m.engineArr [] = m.arrHeap.getD m.engineArr [] := by
      rw [List.getD_eq_getElem?_getD, List.getElem?_set_ne (by omega),
        List.getElem?_append_left h, ← List.getD_eq_getElem?_getD]
    rw [harr]

/-- Applying `getAnnotations_fresh_array` to the concrete one-annotation
heap. -/
theorem getAnnotations_fresh_array_witness :
    memCex.engineArr < memCex.arrHeap.length ∧
    ∀ v : List Nat,
      readEngineAnnotations (writeArr (getAnnotationsJs memCex).1 (getAnnotationsJs memCex).2 v)
        = readEngineAnnotations memCex :=
  ⟨by decide, (getAnnotations_fresh_array memCex (by decide)).2.2⟩

/-- C4 counterexample: switching the tool in the middle of a drag gesture
(pointer-down at (10, 10) with the circle tool, then `setTool("arrow")`)
does not cancel the interaction — the engine is still in the drawing
state, the uncommitted live primitive is still held, and the pending
record of the interrupted gesture survives. -/
theorem setTool_midgesture_not_idle_cex :
    (setTool midGesture .arrow).drawing = true ∧
    (setTool midGesture .arrow).activeElement.isSome = true ∧
    (setTool midGesture .arrow).pendingAnn.isSome = true := by
  decide

/-- C4 amended: `setTool` (and `show` with a new tool) switches the active
tool and rebinds the pointer handlers for it, but does not cancel an
in-progress drawing interaction: the drawing flag, the live primitive
reference, the pending record and the committed annotation list all
survive the switch unchanged. -/
theorem toolswitch_rebinds_preserves_gesture (s : OverlayState) (t : Tool)
    (hsvg : s.svg.isSome = true) :
    (setTool s t).activeTool = t ∧
    (setTool s t).attachedKind = some (handlerKindFor t) ∧
    (setTool s t).drawing = s.drawing ∧
    (setTool s t).activeElement = s.activeElement ∧
    (setTool s t).pendingAnn = s.pendingAnn ∧
    (setTool s t).annotations = s.annotations ∧
    (show' s t).activeTool = t ∧
    (show' s t).attachedKind = some (handlerKindFor t) ∧
    (show' s t).drawing = s.drawing ∧
    (show' s t).activeElement = s.activeElement ∧
    (show' s t).pendingAnn = s.pendingAnn ∧
    (show' s t).annotations = s.annotations := by
  obtain ⟨m, hm⟩ := Option.isSome_iff_exists.mp hsvg
  simp [setTool, show', attachHandlers, detachHandlers, createSVG, hm]

/-- Applying `toolswitch_rebinds_preserves_gesture` to the concrete
mid-gesture state. -/
theorem toolswitch_rebinds_preserves_gesture_witness :
    midGesture.svg.isSome = true ∧
    (setTool midGesture .arrow).drawing = midGesture.drawing ∧
    (setTool midGesture .arrow).pendingAnn = midGesture.pendingAnn := by
  have h := toolswitch_rebinds_preserves_gesture midGesture .arrow (by decide)
  exact ⟨by decide, h.2.2.1, h.2.2.2.2.1⟩

/-- `mousemove` only mutates the live svg element: every other engine field
is untouched. -/
theorem onMouseMove_proj (s : OverlayState) (e : MouseEv) :
    (onMouseMove s e).annotations = s.annotations ∧
    (onMouseMove s e).activeTool = s.activeTool ∧
    (onMouseMove s e).color = s.color ∧
    (onMouseMove s e).drawing = s.drawing ∧
    (onMouseMove s e).startX = s.startX ∧
    (onMouseMove s e).startY = s.startY ∧
    (onMouseMove s e).activeElement = s.activeElement ∧
    (onMouseMove s e).pendingAnn = s.pendingAnn ∧
    (onMouseMove s e).nextAnnId = s.nextAnnId := by
  unfold onMouseMove updateSvgElem
  cases hae : s.activeElement <;> cases hsv : s.svg <;> split_ifs <;> simp [hae, hsv]

/-- A whole run of `mousemove` events only mutates the live svg element. -/
theorem foldMoves_proj (ms : List MouseEv) (s : OverlayState) :
    ((ms.foldl onMouseMove s).annotations = s.annotations ∧
     (ms.foldl onMouseMove s).activeTool = s.activeTool ∧
     (ms.foldl onMouseMove s).color = s.color ∧
     (ms.foldl onMouseMove s).drawing = s.drawing ∧
     (ms.foldl onMouseMove s).startX = s.startX ∧
     (ms.foldl onMouseMove s).startY = s.startY ∧
     (ms.foldl onMouseMove s).activeElement = s.activeElement ∧
     (ms.foldl onMouseMove s).pendingAnn = s.pendingAnn ∧
     (ms.foldl onMouseMove s).nextAnnId = s.nextAnnId) := by
  induction ms generalizing s with
  | nil => simp
  | cons e ms ih =>
    obtain ⟨a1, a2, a3, a4, a5, a6, a7, a8, a9⟩ := onMouseMove_proj s e
    obtain ⟨b1, b2, b3, b4, b5, b6, b7, b8, b9⟩ := ih (onMouseMove s e)
    rw [List.foldl_cons]
    exact ⟨b1.trans a1, b2.trans a2, b3.trans a3, b4.trans a4, b5.trans a5,
      b6.trans a6, b7.trans a7, b8.trans a8, b9.trans a9⟩

/-- What `mousedown` does with the circle tool active (outside chisel
chrome, surface present). -/
theorem onMouseDown_circle (s : OverlayState) (e : MouseEv) (m : SvgModel)
    (hm : s.svg = some m) (hchrome : e.inChiselChrome = false)
    (hc : s.activeTool = .circle) :
    onMouseDown s e = { s with
      drawing := true, startX := e.x, startY := e.y,
      svg := some (appendElem m "ellipse"
        [("cx", (e.x : ℚ)), ("cy", (e.y : ℚ)), ("rx", 0), ("ry", 0)] s.color),
      activeElement := some m.nextEid,
      pendingAnn := some { id := "ann_" ++ toString s.nextAnnId, tool := .circle, color := s.color },
      nextAnnId := s.nextAnnId + 1 } := by
  simp [onMouseDown, hchrome, hm, hc, genId]

/-- What `mousedown` does with the arrow tool active (outside chisel
chrome, surface present). -/
theorem onMouseDown_arrow (s : OverlayState) (e : MouseEv) (m : SvgModel)
    (hm : s.svg = some m) (hchrome : e.inChiselChrome = false)
    (ha : s.activeTool = .arrow) :
    onMouseDown s e = { s with
      drawing := true, startX := e.x, startY := e.y,
      svg := some (appendElem (ensureArrowMarker m s.color).1 "line"
        [("x1", (e.x : ℚ)), ("y1", (e.y : ℚ)), ("x2", (e.x : ℚ)), ("y2", (e.y : ℚ))] s.color),
      activeElement := some (ensureArrowMarker m s.color).1.nextEid,
      pendingAnn := some { id := "ann_" ++ toString s.nextAnnId, tool := .arrow, x := some e.x, y := some e.y, color := s.color },
      nextAnnId := s.nextAnnId + 1 } := by
  simp [onMouseDown, hchrome, hm, ha, genId]

/-- `mouseup` with the circle tool and a non-degenerate drag commits the
min-corner/abs-size annotation built from the pending record. -/
theorem onMouseUp_circle_commit (s : OverlayState) (e : MouseEv) (p : PendingAnn)
    (hdraw : s.drawing = true) (htool : s.activeTool = .circle)
    (hp : s.pendingAnn = some p)
    (hbig : ¬(|e.x - s.startX| < 5 ∧ |e.y - s.startY| < 5)) :
    (onMouseUp s e).annotations = s.annotations ++
      [({ id := p.id, tool := p.tool, x := min s.startX e.x, y := min s.startY e.y,
          width := some |e.x - s.startX|, height := some |e.y - s.startY|,
          color := p.color } : Ann)] := by
  simp [onMouseUp, hdraw, htool, hp, hbig]

/-- `mouseup` with the arrow tool and a non-degenerate drag commits the
start-from-pending / end-from-event annotation. -/
theorem onMouseUp_arrow_commit (s : OverlayState) (e : MouseEv) (p : PendingAnn)
    (hdraw : s.drawing = true) (htool : s.activeTool = .arrow)
    (hp : s.pendingAnn = some p)
    (hbig : ¬(|e.x - s.startX| < 5 ∧ |e.y - s.startY| < 5)) :
    (onMouseUp s e).annotations = s.annotations ++
      [({ id := p.id, tool := p.tool, x := p.x.getD 0, y := p.y.getD 0,
          endX := some e.x, endY := some e.y, color := p.color } : Ann)] := by
  simp [onMouseUp, hdraw, htool, hp, hbig]

/-- `mouseup` after a drag below the threshold in both axes: nothing is
committed, the gesture state is reset, and the svg is the one obtained by
detaching the live element. -/
theorem onMouseUp_discard (s : OverlayState) (e : MouseEv) (p : PendingAnn)
    (hdraw : s.drawing = true)
    (htool : s.activeTool = .circle ∨ s.activeTool = .arrow)
    (hp : s.pendingAnn = some p)
    (hsmall : |e.x - s.startX| < 5 ∧ |e.y - s.startY| < 5) :
    (onMouseUp s e).annotations = s.annotations ∧
    (onMouseUp s e).drawing = false ∧
    (onMouseUp s e).activeElement = none ∧
    (onMouseUp s e).pendingAnn = none ∧
    (onMouseUp s e).svg = (removeActiveElement { s with drawing := false }).svg := by
  rcases htool with htool | htool <;>
    simp [onMouseUp, hdraw, htool, hp, hsmall, removeActiveElement] <;>
    cases s.activeElement <;> cases s.svg <;> simp

/-- C2: a pointer-down → moves → pointer-up gesture with the circle or
arrow tool whose displacement is at least 5px in both axes appends exactly
one annotation, whose geometry matches the gesture's endpoints: a circle
gets the min corner and the absolute sizes, an arrow gets the pointer-down
start point and the pointer-up end point; its color is the engine's color
at pointer-down. -/
theorem drag_commit_appends_one (s : OverlayState) (down up : MouseEv) (moves : List MouseEv)
    (htool : s.activeTool = .circle ∨ s.activeTool = .arrow)
    (hsvg : s.svg.isSome = true)
    (hchrome : down.inChiselChrome = false)
    (hdx : 5 ≤ |up.x - down.x|) (hdy : 5 ≤ |up.y - down.y|) :
    ∃ a : Ann,
      (mouseGesture s down moves up).annotations = s.annotations ++ [a] ∧
      a.tool = s.activeTool ∧ a.color = s.color ∧
      (s.activeTool = .circle →
        a.x = min down.x up.x ∧ a.y = min down.y up.y ∧
        a.width = some |up.x - down.x| ∧ a.height = some |up.y - down.y|) ∧
      (s.activeTool = .arrow →
        a.x = down.x ∧ a.y = down.y ∧ a.endX = some up.x ∧ a.endY = some up.y) := by
  obtain ⟨m, hm⟩ := Option.isSome_iff_exists.mp hsvg
  rcases htool with hc | ha
  · set sd := onMouseDown s down with hsd
    obtain ⟨f1, f2, f3, f4, f5, f6, f7, f8, f9⟩ := foldMoves_proj moves sd
    have hdown := onMouseDown_circle s down m hm hchrome hc
    set sf := moves.foldl onMouseMove sd with hsf
    have g1 : sf.drawing = true := by rw [f4, hsd, hdown]
    have g2 : sf.startX = down.x := by rw [f5, hsd, hdown]
    have g3 : sf.startY = down.y := by rw [f6, hsd, hdown]
    have g4 : sf.activeTool = .circle := by rw [f2, hsd, hdown]; exact hc
    have g5 : sf.pendingAnn
        = some { id := "ann_" ++ toString s.nextAnnId, tool := .circle, color := s.color } := by
      rw [f8, hsd, hdown]
    have g6 : sf.annotations = s.annotations := by rw [f1, hsd, hdown]
    have hbig : ¬(|up.x - sf.startX| < 5 ∧ |up.y - sf.startY| < 5) := by
      rw [g2, g3]
      exact fun hcon => absurd hcon.1 (not_lt.mpr hdx)
    have hcommit := onMouseUp_circle_commit sf up
      { id := "ann_" ++ toString s.nextAnnId, tool := .circle, color := s.color }
      g1 g4 g5 hbig
    refine ⟨{ id := "ann_" ++ toString s.nextAnnId, tool := .circle, x := min down.x up.x, y := min down.y up.y, width := some |up.x - down.x|, height := some |up.y - down.y|, color := s.color }, ?_, hc.symm, rfl, ?_, ?_⟩
    · show (onMouseUp sf up).annotations = _
      rw [hcommit, g6, g2, g3]
    · intro _
      exact ⟨rfl, rfl, rfl, rfl⟩
    · intro h
      rw [hc] at h
      exact absurd h (by decide)
  · set sd := onMouseDown s down with hsd
    obtain ⟨f1, f2, f3, f4, f5, f6, f7, f8, f9⟩ := foldMoves_proj moves sd
    have hdown := onMouseDown_arrow s down m hm hchrome ha
    set sf := moves.foldl onMouseMove sd with hsf
    have g1 : sf.drawing = true := by rw [f4, hsd, hdown]
    have g2 : sf.startX = down.x := by rw [f5, hsd, hdown]
    have g3 : sf.startY = down.y := by rw [f6, hsd, hdown]
    have g4 : sf.activeTool = .arrow := by rw [f2, hsd, hdown]; exact ha
    have g5 : sf.pendingAnn
        = some { id := "ann_" ++ toString s.nextAnnId, tool := .arrow, x := some down.x, y := some down.y, color := s.color } := by
      rw [f8, hsd, hdown]
    have g6 : sf.annotations = s.annotations := by rw [f1, hsd, hdown]
    have hbig : ¬(|up.x - sf.startX| < 5 ∧ |up.y - sf.startY| < 5) := by
      rw [g2, g3]
      exact fun hcon => absurd hcon.1 (not_lt.mpr hdx)
    have hcommit := onMouseUp_arrow_commit sf up
      { id := "ann_" ++ toString s.nextAnnId, tool := .arrow, x := some down.x, y := some down.y, color := s.color }
      g1 g4 g5 hbig
    refine ⟨{ id := "ann_" ++ toString s.nextAnnId, tool := .arrow, x := down.x, y := down.y, endX := some up.x, endY := some up.y, color := s.color }, ?_, ha.symm, rfl, ?_, ?_⟩
    · show (onMouseUp sf up).annotations = _
      rw [hcommit, g6]
      rfl
    · intro h
      rw [ha] at h
      exact absurd h (by decide)
    · intro _
      exact ⟨rfl, rfl, rfl, rfl⟩

/-- Applying `drag_commit_appends_one` to the spec's scenario: a circle
drawn from (100, 100) to (200, 180) yields x = 100, y = 100, width = 100,
height = 80. -/
theorem drag_commit_appends_one_witness :
    (shownCircle.activeTool = .circle ∨ shownCircle.activeTool = .arrow) ∧
    shownCircle.svg.isSome = true ∧
    (5 ≤ |(200 : Int) - 100|) ∧ (5 ≤ |(180 : Int) - 100|) ∧
    ∃ a : Ann,
      (mouseGesture shownCircle { x := 100, y := 100 } [] { x := 200, y := 180 }).annotations
        = shownCircle.annotations ++ [a] ∧
      a.tool = shownCircle.activeTool ∧ a.color = shownCircle.color ∧
      (shownCircle.activeTool = .circle →
        a.x = min (100 : Int) 200 ∧ a.y = min (100 : Int) 180 ∧
        a.width = some |(200 : Int) - 100| ∧ a.height = some |(180 : Int) - 100|) ∧
      (shownCircle.activeTool = .arrow →
        a.x = 100 ∧ a.y = 100 ∧ a.endX = some 200 ∧ a.endY = some 180) :=
  ⟨by decide, by decide, by decide, by decide,
    drag_commit_appends_one shownCircle { x := 100, y := 100 } { x := 200, y := 180 } []
      (by decide) (by decide) (by decide) (by decide) (by decide)⟩

/-- C10: when `setColor(c)` runs in the middle of a circle or arrow drag
(after pointer-down, before pointer-up, with any mousemoves around it), the
annotation committed at pointer-up carries the color that was active at
pointer-down, not `c`: the pending record's color is fixed at gesture start
and never re-read at commit time. -/
theorem setColor_midgesture_keeps_start_color (s : OverlayState) (down up : MouseEv)
    (moves1 moves2 : List MouseEv) (c : String)
    (htool : s.activeTool = .circle ∨ s.activeTool = .arrow)
    (hsvg : s.svg.isSome = true)
    (hchrome : down.inChiselChrome = false)
    (hdx : 5 ≤ |up.x - down.x|) (hdy : 5 ≤ |up.y - down.y|)
    (hc : c ≠ s.color) :
    ∃ a : Ann,
      (onMouseUp (moves2.foldl onMouseMove
          (setColor (moves1.foldl onMouseMove (onMouseDown s down)) c)) up).annotations
        = s.annotations ++ [a] ∧
      a.color = s.color ∧ a.color ≠ c := by
  obtain ⟨m, hm⟩ := Option.isSome_iff_exists.mp hsvg
  set sd := onMouseDown s down with hsd
  set s1 := moves1.foldl onMouseMove sd with hs1
  set s2 := setColor s1 c with hs2
  set s3 := moves2.foldl onMouseMove s2 with hs3
  obtain ⟨p1, p2, p3, p4, p5, p6, p7, p8, p9⟩ := foldMoves_proj moves1 sd
  obtain ⟨q1, q2, q3, q4, q5, q6, q7, q8, q9⟩ := foldMoves_proj moves2 s2
  have r1 : s2.annotations = s1.annotations := rfl
  have r2 : s2.activeTool = s1.activeTool := rfl
  have r4 : s2.drawing = s1.drawing := rfl
  have r5 : s2.startX = s1.startX := rfl
  have r6 : s2.startY = s1.startY := rfl
  have r8 : s2.pendingAnn = s1.pendingAnn := rfl
  rcases htool with htl | htl
  · have hdown := onMouseDown_circle s down m hm hchrome htl
    have g1 : s3.drawing = true := by rw [q4, r4, p4, hsd, hdown]
    have g2 : s3.startX = down.x := by rw [q5, r5, p5, hsd, hdown]
    have g3 : s3.startY = down.y := by rw [q6, r6, p6, hsd, hdown]
    have g4 : s3.activeTool = .circle := by rw [q2, r2, p2, hsd, hdown]; exact htl
    have g5 : s3.pendingAnn
        = some { id := "ann_" ++ toString s.nextAnnId, tool := .circle, color := s.color } := by
      rw [q8, r8, p8, hsd, hdown]
    have g6 : s3.annotations = s.annotations := by rw [q1, r1, p1, hsd, hdown]
    have hbig : ¬(|up.x - s3.startX| < 5 ∧ |up.y - s3.startY| < 5) := by
      rw [g2, g3]
      exact fun hcon => absurd hcon.1 (not_lt.mpr hdx)
    have hcommit := onMouseUp_circle_commit s3 up
      { id := "ann_" ++ toString s.nextAnnId, tool := .circle, color := s.color }
      g1 g4 g5 hbig
    refine ⟨{ id := "ann_" ++ toString s.nextAnnId, tool := .circle, x := min down.x up.x, y := min down.y up.y, width := some |up.x - down.x|, height := some |up.y - down.y|, color := s.color }, ?_, rfl, Ne.symm hc⟩
    rw [hcommit, g6, g2, g3]
  · have hdown := onMouseDown_arrow s down m hm hchrome htl
    have g1 : s3.drawing = true := by rw [q4, r4, p4, hsd, hdown]
    have g2 : s3.startX = down.x := by rw [q5, r5, p5, hsd, hdown]
    have g3 : s3.startY = down.y := by rw [q6, r6, p6, hsd, hdown]
    have g4 : s3.activeTool = .arrow := by rw [q2, r2, p2, hsd, hdown]; exact htl
    have g5 : s3.pendingAnn
        = some { id := "ann_" ++ toString s.nextAnnId, tool := .arrow, x := some down.x, y := some down.y, color := s.color } := by
      rw [q8, r8, p8, hsd, hdown]
    have g6 : s3.annotations = s.annotations := by rw [q1, r1, p1, hsd, hdown]
    have hbig : ¬(|up.x - s3.startX| < 5 ∧ |up.y - s3.startY| < 5) := by
      rw [g2, g3]
      exact fun hcon => absurd hcon.1 (not_lt.mpr hdx)
    have hcommit := onMouseUp_arrow_commit s3 up
      { id := "ann_" ++ toString s.nextAnnId, tool := .arrow, x := some down.x, y := some down.y, color := s.color }
      g1 g4 g5 hbig
    refine ⟨{ id := "ann_" ++ toString s.nextAnnId, tool := .arrow, x := down.x, y := down.y, endX := some up.x, endY := some up.y, color := s.color }, ?_, rfl, Ne.symm hc⟩
    rw [hcommit, g6]
    rfl

/-- Applying `setColor_midgesture_keeps_start_color` to a concrete gesture:
down at (0, 0) with color `#ef4444`, `setColor("#0000ff")` mid-drag, up at
(50, 40); the committed annotation keeps `#ef4444`. -/
theorem setColor_midgesture_keeps_start_color_witness :
    (shownCircle.activeTool = .circle ∨ shownCircle.activeTool = .arrow) ∧
    ("#0000ff" ≠ shownCircle.color) ∧
    ∃ a : Ann,
      (onMouseUp (List.foldl onMouseMove
          (setColor (List.foldl onMouseMove (onMouseDown shownCircle { x := 0, y := 0 }) [])
            "#0000ff") []) { x := 50, y := 40 }).annotations
        = shownCircle.annotations ++ [a] ∧
      a.color = shownCircle.color ∧ a.color ≠ "#0000ff" :=
  ⟨by decide, by decide,
    setColor_midgesture_keeps_start_color shownCircle { x := 0, y := 0 } { x := 50, y := 40 }
      [] [] "#0000ff" (by decide) (by decide) (by decide) (by decide) (by decide) (by decide)⟩

/-- `ensureArrowMarker` only touches the `<defs>` markers. -/
theorem ensureArrowMarker_children (m : SvgModel) (c : String) :
    (ensureArrowMarker m c).1.children = m.children := by
  unfold ensureArrowMarker
  dsimp only
  split <;> rfl

/-- `ensureArrowMarker` does not consume element identities. -/
theorem ensureArrowMarker_nextEid (m : SvgModel) (c : String) :
    (ensureArrowMarker m c).1.nextEid = m.nextEid := by
  unfold ensureArrowMarker
  dsimp only
  split <;> rfl

/-- During a drag, any run of `mousemove` events only rewrites the live
element's attributes: the other children stay untouched and the live
element keeps its node identity. -/
theorem foldMoves_children (ms : List MouseEv) (s : OverlayState) (m : SvgModel)
    (base : List SvgElem) (liveEl : SvgElem)
    (hsvg : s.svg = some m) (hch : m.children = base ++ [liveEl])
    (hact : s.activeElement = some liveEl.eid)
    (hbase : ∀ b ∈ base, b.eid ≠ liveEl.eid) :
    ∃ m' liveEl', (ms.foldl onMouseMove s).svg = some m' ∧
      m'.children = base ++ [liveEl'] ∧ liveEl'.eid = liveEl.eid := by
  induction ms generalizing s m liveEl with
  | nil => exact ⟨m, liveEl, hsvg, hch, rfl⟩
  | cons e ms ih =>
    rw [List.foldl_cons]
    by_cases hdraw : s.drawing = true
    · obtain ⟨f, hfeid, heq⟩ :
          ∃ f : SvgElem → SvgElem, (∀ el, (f el).eid = el.eid) ∧
            onMouseMove s e = updateSvgElem s liveEl.eid f := by
        by_cases htool : s.activeTool = .circle
        · refine ⟨fun el => { el with attrs := setAttr (setAttr (setAttr (setAttr el.attrs "cx" ((min s.startX e.x : Int) + |(e.x : ℚ) - (s.startX : ℚ)| / 2)) "cy" ((min s.startY e.y : Int) + |(e.y : ℚ) - (s.startY : ℚ)| / 2)) "rx" (|(e.x : ℚ) - (s.startX : ℚ)| / 2)) "ry" (|(e.y : ℚ) - (s.startY : ℚ)| / 2) }, fun el => rfl, ?_⟩
          simp [onMouseMove, hact, hdraw, htool]
        · refine ⟨fun el => { el with attrs := setAttr (setAttr el.attrs "x2" (e.x : ℚ)) "y2" (e.y : ℚ) }, fun el => rfl, ?_⟩
          simp [onMouseMove, hact, hdraw, htool]
      have hmapbase : base.map (fun el => if el.eid == liveEl.eid then f el else el) = base := by
        conv_rhs => rw [← List.map_id base]
        exact List.map_congr_left (fun b hb => by simp [hbase b hb])
      have hupdate : (updateSvgElem s liveEl.eid f).svg
          = some { m with children := base ++ [f liveEl] } := by
        simp only [updateSvgElem, hsvg]
        rw [hch, List.map_append, hmapbase]
        simp
      rw [heq]
      have hact' : (updateSvgElem s liveEl.eid f).activeElement = some (f liveEl).eid := by
        rw [hfeid]
        cases hsv : s.svg <;> simp [updateSvgElem, hsv, hact]
      have hbase' : ∀ b ∈ base, b.eid ≠ (f liveEl).eid := by
        rw [hfeid]
        exact hbase
      obtain ⟨m', liveEl', h1, h2, h3⟩ :=
        ih (updateSvgElem s liveEl.eid f) { m with children := base ++ [f liveEl] } (f liveEl)
          hupdate rfl hact' hbase'
      exact ⟨m', liveEl', h1, h2, h3.trans (hfeid liveEl)⟩
    · have hmove : onMouseMove s e = s := by
        simp [onMouseMove, hact, hdraw]
      rw [hmove]
      exact ih s m liveEl hsvg hch hact hbase

/-- C3 counterexample: a circle drag from (0, 0) straight down to (0, 100)
moves less than 5px in the x axis, yet the code commits one annotation —
the source only discards when the drag is below 5px in *both* axes, so the
claim's "below 5px in either axis ⇒ zero annotations" fails here. -/
theorem small_axis_drag_commits_cex :
    (|(0 : Int) - 0| < 5 ∨ |(100 : Int) - 0| < 5) ∧
    (mouseGesture shownCircle { x := 0, y := 0 } [] { x := 0, y := 100 }).annotations.length
      = 1 := by
  exact ⟨Or.inl (by decide), by decide⟩

/-- Detaching the live element filters it out of the svg children. -/
theorem removeActiveElement_svg (s : OverlayState) (eid : Nat) (m : SvgModel)
    (ha : s.activeElement = some eid) (hs : s.svg = some m) :
    (removeActiveElement s).svg
      = some { m with children := m.children.filter (fun el => el.eid != eid) } := by
  unfold removeActiveElement
  rw [ha, hs]

/-- C3 amended: a circle or arrow drag whose displacement is below 5px in
*both* axes commits nothing: the annotation list is unchanged, the gesture
state is reset, and the live primitive is removed — the surface's children
return to exactly their pre-gesture list, leaving no visual artifact. -/
theorem small_drag_both_axes_discarded (s : OverlayState) (down up : MouseEv)
    (moves : List MouseEv) (m : SvgModel)
    (htool : s.activeTool = .circle ∨ s.activeTool = .arrow)
    (hsvg : s.svg = some m)
    (hchrome : down.inChiselChrome = false)
    (hfresh : ∀ el ∈ m.children, el.eid ≠ m.nextEid)
    (hdx : |up.x - down.x| < 5) (hdy : |up.y - down.y| < 5) :
    (mouseGesture s down moves up).annotations = s.annotations ∧
    (mouseGesture s down moves up).drawing = false ∧
    (mouseGesture s down moves up).pendingAnn = none ∧
    (mouseGesture s down moves up).activeElement = none ∧
    ∃ mEnd, (mouseGesture s down moves up).svg = some mEnd ∧ mEnd.children = m.children := by
  set sd := onMouseDown s down with hsd
  obtain ⟨f1, f2, f3, f4, f5, f6, f7, f8, f9⟩ := foldMoves_proj moves sd
  set sf := moves.foldl onMouseMove sd with hsf
  have hgest : mouseGesture s down moves up = onMouseUp sf up := rfl
  rcases htool with htl | htl
  · have hdown := onMouseDown_circle s down m hsvg hchrome htl
    have g1 : sf.drawing = true := by rw [f4, hsd, hdown]
    have g2 : sf.startX = down.x := by rw [f5, hsd, hdown]
    have g3 : sf.startY = down.y := by rw [f6, hsd, hdown]
    have g4 : sf.activeTool = .circle := by rw [f2, hsd, hdown]; exact htl
    have g5 : sf.pendingAnn
        = some { id := "ann_" ++ toString s.nextAnnId, tool := .circle, color := s.color } := by
      rw [f8, hsd, hdown]
    have g6 : sf.annotations = s.annotations := by rw [f1, hsd, hdown]
    have g7 : sf.activeElement = some m.nextEid := by rw [f7, hsd, hdown]
    obtain ⟨m', liveEl', hm', hch', heid'⟩ :=
      foldMoves_children moves sd
        (appendElem m "ellipse" [("cx", (down.x : ℚ)), ("cy", (down.y : ℚ)), ("rx", 0), ("ry", 0)] s.color)
        m.children
        { eid := m.nextEid, tag := "ellipse", attrs := [("cx", (down.x : ℚ)), ("cy", (down.y : ℚ)), ("rx", 0), ("ry", 0)], stroke := s.color }
        (by rw [hsd, hdown]) rfl (by rw [hsd, hdown]) hfresh
    rw [← hsf] at hm'
    have hsmall : |up.x - sf.startX| < 5 ∧ |up.y - sf.startY| < 5 := by
      rw [g2, g3]
      exact ⟨hdx, hdy⟩
    have hdisc := onMouseUp_discard sf up
      { id := "ann_" ++ toString s.nextAnnId, tool := .circle, color := s.color }
      g1 (Or.inl g4) g5 hsmall
    have hrm : (removeActiveElement { sf with drawing := false }).svg
        = some { m' with children := m'.children.filter (fun el => el.eid != m.nextEid) } :=
      removeActiveElement_svg { sf with drawing := false } m.nextEid m' g7 hm'
    have hfilter : m'.children.filter (fun el => el.eid != m.nextEid) = m.children := by
      rw [hch', List.filter_append]
      have h1 : m.children.filter (fun el => el.eid != m.nextEid) = m.children :=
        List.filter_eq_self.mpr (fun el hel => by simp [hfresh el hel])
      have h2 : [liveEl'].filter (fun el => el.eid != m.nextEid) = [] := by
        simp [List.filter, heid']
      rw [h1, h2, List.append_nil]
    refine ⟨hgest ▸ (hdisc.1.trans g6), hgest ▸ hdisc.2.1, hgest ▸ hdisc.2.2.2.1,
      hgest ▸ hdisc.2.2.1, ⟨{ m' with children := m.children }, ?_, rfl⟩⟩
    rw [hgest, hdisc.2.2.2.2, hrm, hfilter]
  · have hdown := onMouseDown_arrow s down m hsvg hchrome htl
    have g1 : sf.drawing = true := by rw [f4, hsd, hdown]
    have g2 : sf.startX = down.x := by rw [f5, hsd, hdown]
    have g3 : sf.startY = down.y := by rw [f6, hsd, hdown]
    have g4 : sf.activeTool = .arrow := by rw [f2, hsd, hdown]; exact htl
    have g5 : sf.pendingAnn
        = some { id := "ann_" ++ toString s.nextAnnId, tool := .arrow, x := some down.x, y := some down.y, color := s.color } := by
      rw [f8, hsd, hdown]
    have g6 : sf.annotations = s.annotations := by rw [f1, hsd, hdown]
    have g7 : sf.activeElement = some (ensureArrowMarker m s.color).1.nextEid := by
      rw [f7, hsd, hdown]
    have g7' : sf.activeElement = some m.nextEid := by
      rw [g7, ensureArrowMarker_nextEid]
    have hbaseA : ∀ b ∈ (ensureArrowMarker m s.color).1.children,
        b.eid ≠ (ensureArrowMarker m s.color).1.nextEid := by
      rw [ensureArrowMarker_children, ensureArrowMarker_nextEid]
      exact hfresh
    obtain ⟨m', liveEl', hm', hch', heid'⟩ :=
      foldMoves_children moves sd
        (appendElem (ensureArrowMarker m s.color).1 "line" [("x1", (down.x : ℚ)), ("y1", (down.y : ℚ)), ("x2", (down.x : ℚ)), ("y2", (down.y : ℚ))] s.color)
        (ensureArrowMarker m s.color).1.children
        { eid := (ensureArrowMarker m s.color).1.nextEid, tag := "line", attrs := [("x1", (down.x : ℚ)), ("y1", (down.y : ℚ)), ("x2", (down.x : ℚ)), ("y2", (down.y : ℚ))], stroke := s.color }
        (by rw [hsd, hdown]) rfl (by rw [hsd, hdown]) hbaseA
    rw [← hsf] at hm'
    have heidm : liveEl'.eid = m.nextEid := by
      rw [heid']
      exact ensureArrowMarker_nextEid m s.color
    have hchm : m'.children = m.children ++ [liveEl'] := by
      rw [hch', ensureArrowMarker_children]
    have hsmall : |up.x - sf.startX| < 5 ∧ |up.y - sf.startY| < 5 := by
      rw [g2, g3]
      exact ⟨hdx, hdy⟩
    have hdisc := onMouseUp_discard sf up
      { id := "ann_" ++ toString s.nextAnnId, tool := .arrow, x := some down.x, y := some down.y, color := s.color }
      g1 (Or.inr g4) g5 hsmall
    have hrm : (removeActiveElement { sf with drawing := false }).svg
        = some { m' with children := m'.children.filter (fun el => el.eid != m.nextEid) } :=
      removeActiveElement_svg { sf with drawing := false } m.nextEid m' g7' hm'
    have hfilter : m'.children.filter (fun el => el.eid != m.nextEid) = m.children := by
      rw [hchm, List.filter_append]
      have h1 : m.children.filter (fun el => el.eid != m.nextEid) = m.children :=
        List.filter_eq_self.mpr (fun el hel => by simp [hfresh el hel])
      have h2 : [liveEl'].filter (fun el => el.eid != m.nextEid) = [] := by
        simp [List.filter, heidm]
      rw [h1, h2, List.append_nil]
    refine ⟨hgest ▸ (hdisc.1.trans g6), hgest ▸ hdisc.2.1, hgest ▸ hdisc.2.2.2.1,
      hgest ▸ hdisc.2.2.1, ⟨{ m' with children := m.children }, ?_, rfl⟩⟩
    rw [hgest, hdisc.2.2.2.2, hrm, hfilter]

/-- Applying `small_drag_both_axes_discarded` to the spec's scenario: an
arrow (here, circle-tool) drag from (50, 50) to (52, 53) — below 5px in
both axes — creates no annotation and leaves no element behind. -/
theorem small_drag_both_axes_discarded_witness :
    (shownCircle.activeTool = .circle ∨ shownCircle.activeTool = .arrow) ∧
    shownCircle.svg = some { display := "block", children := [], markers := [], nextEid := 0 } ∧
    (|(52 : Int) - 50| < 5 ∧ |(53 : Int) - 50| < 5) ∧
    (mouseGesture shownCircle { x := 50, y := 50 } [] { x := 52, y := 53 }).annotations
      = shownCircle.annotations := by
  refine ⟨by decide, by decide, by decide, ?_⟩
  exact (small_drag_both_axes_discarded shownCircle { x := 50, y := 50 } { x := 52, y := 53 } []
    { display := "block", children := [], markers := [], nextEid := 0 }
    (by decide) (by decide) (by decide) (by intro el hel; cases hel) (by decide) (by decide)).1

/-- A well-formed annotation always makes the foreignObject renderer emit a
non-empty shape group. -/
theorem renderAnnFO_isEmpty_false (a : Ann) (h : wellFormedAnn a = true) :
    (renderAnnFO a).isEmpty = false := by
  unfold wellFormedAnn at h
  cases ht : a.tool <;> rw [ht] at h
  · rcases hw : a.width with _ | w <;> rcases hh : a.height with _ | hgt <;>
      simp_all [renderAnnFO, ht, hw, hh]
  · rcases he : a.endX with _ | ex <;> rcases he' : a.endY with _ | ey <;>
      simp_all [renderAnnFO, ht, he, he']
  · rcases htx : a.text with _ | t
    · rw [htx] at h
      simp at h
    · rw [htx] at h
      have : t ≠ "" := by simpa using h
      simp [renderAnnFO, ht, htx, this]

/-- A well-formed annotation always makes the canvas renderer emit a
non-empty shape group. -/
theorem renderAnnCanvas_isEmpty_false (a : Ann) (h : wellFormedAnn a = true) :
    (renderAnnCanvas a).isEmpty = false := by
  unfold wellFormedAnn at h
  cases ht : a.tool <;> rw [ht] at h
  · rcases hw : a.width with _ | w <;> rcases hh : a.height with _ | hgt <;>
      simp_all [renderAnnCanvas, ht, hw, hh]
  · rcases he : a.endX with _ | ex <;> rcases he' : a.endY with _ | ey <;>
      simp_all [renderAnnCanvas, ht, he, he', drawCanvasArrow]
  · rcases htx : a.text with _ | t
    · rw [htx] at h
      simp at h
    · rw [htx] at h
      have : t ≠ "" := by simpa using h
      simp [renderAnnCanvas, ht, htx, this]

/-- Counting non-empty groups of a renderer that never emits an empty group
for the given annotations. -/
theorem renderedGroupCount_eq_length (render : Ann → List Prim) (anns : List Ann)
    (h : ∀ a ∈ anns, (render a).isEmpty = false) :
    renderedGroupCount render anns = anns.length := by
  induction anns with
  | nil => rfl
  | cons a anns ih =>
    have ha : (!(render a).isEmpty) = true := by
      rw [h a (List.mem_cons_self a anns)]
      rfl
    have htail := ih (fun b hb => h b (List.mem_cons_of_mem a hb))
    simp only [renderedGroupCount, List.map_cons, List.filter_cons, ha, if_true,
      List.length_cons] at htail ⊢
    rw [htail]

/-- C8: for well-formed annotation lists both capture strategies emit
exactly one rendered shape group per annotation — the group count equals
the list length — and the foreignObject markup fragment is exactly the
concatenation of those per-annotation groups in list order. -/
theorem render_group_count_eq (anns : List Ann) (h : ∀ a ∈ anns, wellFormedAnn a = true) :
    renderedGroupCount renderAnnFO anns = anns.length ∧
    renderedGroupCount renderAnnCanvas anns = anns.length ∧
    annotationsSvgFO anns = (anns.map renderAnnFO).flatten := by
  refine ⟨renderedGroupCount_eq_length renderAnnFO anns
      (fun a ha => renderAnnFO_isEmpty_false a (h a ha)),
    renderedGroupCount_eq_length renderAnnCanvas anns
      (fun a ha => renderAnnCanvas_isEmpty_false a (h a ha)), ?_⟩
  simp [annotationsSvgFO, List.flatMap_def]

/-- The concrete well-formed annotation list (one of each tool) used by the
round-trip witness. -/
def wfAnns : List Ann :=
  [{ id := "ann_1", tool := .circle, x := 100, y := 100, width := some 100, height := some 80, color := "#ef4444" },
   { id := "ann_2", tool := .arrow, x := 0, y := 0, endX := some 50, endY := some 50, color := "#ef4444" },
   { id := "ann_3", tool := .text, x := 10, y := 10, text := some "hi", color := "#ef4444" }]

/-- Applying `render_group_count_eq` to one annotation of each tool. -/
theorem render_group_count_eq_witness :
    (∀ a ∈ wfAnns, wellFormedAnn a = true) ∧
    renderedGroupCount renderAnnFO wfAnns = wfAnns.length ∧
    renderedGroupCount renderAnnCanvas wfAnns = wfAnns.length :=
  ⟨by decide, (render_group_count_eq wfAnns (by decide)).1,
    (render_group_count_eq wfAnns (by decide)).2.1⟩

/-- A point offset from a center by `r` along any angle sits at distance
exactly `r` from the center (the Pythagorean identity). -/
theorem sqrt_offset_dist (cx cy r θ : ℝ) (hr : 0 ≤ r) :
    Real.sqrt ((cx - r * Real.cos θ - cx) ^ 2 + (cy - r * Real.sin θ - cy) ^ 2) = r := by
  have h1 : (cx - r * Real.cos θ - cx) ^ 2 + (cy - r * Real.sin θ - cy) ^ 2 = r ^ 2 := by
    linear_combination (r ^ 2) * (Real.sin_sq_add_cos_sq θ)
  rw [h1, Real.sqrt_sq hr]

/-- C9: both capture strategies compute the identical arrowhead geometry —
`drawCanvasArrow`'s head vertices coincide with the foreignObject markup's
— the two base vertices are `(endX − 12·cos(θ ∓ π/6), endY − 12·sin(θ ∓
π/6))` for `θ = atan2(endY − y, endX − x)`, each at distance exactly 12
from the end point, and the capture of an arrow annotation is the shaft
line from start to end plus the head triangle anchored at the end point. -/
theorem arrowhead_geometry_spec (x y ex ey : ℝ) (color : String)
    (ix iy iex iey : Int) (idStr col : String) :
    canvasArrowHead x y ex ey = foArrowHead x y ex ey ∧
    drawCanvasArrow x y ex ey color
      = [Prim.line x y ex ey color,
         Prim.polygon (ex, ey) (foArrowHead x y ex ey).1 (foArrowHead x y ex ey).2 color] ∧
    (foArrowHead x y ex ey).1
      = (ex - 12 * Real.cos (atan2 (ey - y) (ex - x) - Real.pi / 6),
         ey - 12 * Real.sin (atan2 (ey - y) (ex - x) - Real.pi / 6)) ∧
    (foArrowHead x y ex ey).2
      = (ex - 12 * Real.cos (atan2 (ey - y) (ex - x) + Real.pi / 6),
         ey - 12 * Real.sin (atan2 (ey - y) (ex - x) + Real.pi / 6)) ∧
    Real.sqrt (((foArrowHead x y ex ey).1.1 - ex) ^ 2 + ((foArrowHead x y ex ey).1.2 - ey) ^ 2)
      = 12 ∧
    Real.sqrt (((foArrowHead x y ex ey).2.1 - ex) ^ 2 + ((foArrowHead x y ex ey).2.2 - ey) ^ 2)
      = 12 ∧
    renderAnnFO { id := idStr, tool := .arrow, x := ix, y := iy, endX := some iex, endY := some iey, color := col }
      = [Prim.line (ix : ℝ) (iy : ℝ) (iex : ℝ) (iey : ℝ) col,
         Prim.polygon ((iex : ℝ), (iey : ℝ))
           (foArrowHead (ix : ℝ) (iy : ℝ) (iex : ℝ) (iey : ℝ)).1
           (foArrowHead (ix : ℝ) (iy : ℝ) (iex : ℝ) (iey : ℝ)).2 col] := by
  refine ⟨rfl, rfl, rfl, rfl, ?_, ?_, rfl⟩
  · exact sqrt_offset_dist ex ey 12 (atan2 (ey - y) (ex - x) - Real.pi / 6) (by norm_num)
  · exact sqrt_offset_dist ex ey 12 (atan2 (ey - y) (ex - x) + Real.pi / 6) (by norm_num)

end Chisel
